import Mathlib

/-!
Shallow embedding of the observation-constraint core of `verifiers_interact`
(`folders.py`, `constraints.py`, `telemetry.py`).

Python strings are modelled as Lean `String`; `content.split("\n")` is
modelled by a structural splitter on the character list; `"\n".join(...)`
by a structural joiner.  Regex pattern matching inside `StructureFolder`
is abstracted as a Boolean predicate on lines (the folding algorithm only
consults, per line, whether some configured pattern matches it).
Python floats (`head_ratio`) are modelled as rationals, with `int(x)`
on a non-negative product modelled as the floor.  Counters that Python
renders inside notice strings are modelled as `Int`, matching Python's
unbounded signed integers (they can be zero or negative).
-/

/-- Python `content.split("\n")`, auxiliary loop over the character list. -/
def splitNlAux : List Char → List Char → List String
  | [], acc => [String.mk acc.reverse]
  | c :: rest, acc =>
    if c = '\n' then String.mk acc.reverse :: splitNlAux rest []
    else splitNlAux rest (c :: acc)

/-- Python `content.split("\n")`: split on every newline; `""` gives `[""]`. -/
def pySplitLines (content : String) : List String := splitNlAux content.data []

/-- Python `"\n".join(lines)`. -/
def joinNl : List String → String
  | [] => ""
  | [l] => l
  | l :: rest => l ++ "\n" ++ joinNl rest

/-- Notice line appended by `TruncateFolder.fold` (folders.py lines 63-66). -/
def truncNotice (hidden : Int) (total : Nat) : String :=
  "[TRUNCATED: " ++ toString hidden ++ " of " ++ toString total ++
    " lines hidden. Use targeted queries to navigate.]"

/-- Body of `TruncateFolder.fold` (folders.py lines 58-67), at the line level:
keep the first `budget` lines, then append a blank line and the notice. -/
def truncateFoldLines (lines : List String) (budget : Nat) : List String :=
  let kept := lines.take budget
  let hidden : Int := (lines.length : Int) - (budget : Int)
  kept ++ ["", truncNotice hidden lines.length]

/-- `TruncateFolder.fold` on a raw string. -/
def truncateFold (content : String) (budget : Nat) : String :=
  joinNl (truncateFoldLines (pySplitLines content) budget)

/-- `head_n = max(1, int(budget_lines * head_ratio))` (folders.py line 91). -/
def htHeadCount (r : ℚ) (budget : Nat) : Nat :=
  max 1 (Int.toNat ⌊(budget : ℚ) * r⌋)

/-- `tail_n = max(1, budget_lines - head_n)` (folders.py line 92); the
Python subtraction can be negative, in which case the `max` clamps it to 1,
which agrees with clamping the natural subtraction at 0 first. -/
def htTailCount (r : ℚ) (budget : Nat) : Nat :=
  max 1 (budget - htHeadCount r budget)

/-- Elision marker line of `HeadTailFolder.fold` (folders.py line 100). -/
def elideNotice (hidden : Int) : String :=
  "[... " ++ toString hidden ++ " lines elided ...]"

/-- Body of `HeadTailFolder.fold` (folders.py lines 87-103) at the line
level: first `head_n` lines, blank, elision marker, blank, last `tail_n`
lines (`lines[-tail_n:]` with `tail_n ≥ 1` is `drop (length - tail_n)`). -/
def headTailFoldLines (r : ℚ) (lines : List String) (budget : Nat) : List String :=
  let headN := htHeadCount r budget
  let tailN := htTailCount r budget
  let hidden : Int := (lines.length : Int) - (headN : Int) - (tailN : Int)
  lines.take headN ++ ["", elideNotice hidden, ""] ++ lines.drop (lines.length - tailN)

/-- `HeadTailFolder.fold` on a raw string. -/
def headTailFold (r : ℚ) (content : String) (budget : Nat) : String :=
  joinNl (headTailFoldLines r (pySplitLines content) budget)

/-- Line positions rendered by the head segment `lines[:head_n]`. -/
def renderedInHead (r : ℚ) (budget : Nat) (lines : List String) (i : Nat) : Prop :=
  i < min (htHeadCount r budget) lines.length

/-- Line positions rendered by the tail segment `lines[-tail_n:]`. -/
def renderedInTail (r : ℚ) (budget : Nat) (lines : List String) (i : Nat) : Prop :=
  lines.length - htTailCount r budget ≤ i ∧ i < lines.length

/-- The `structural` list of `StructureFolder.fold` (folders.py lines
144-147): `for i, line in enumerate(lines): if any pattern matches,
append (i, line)`, with the pattern test abstracted as `p`. -/
def structuralAux (p : String → Bool) : Nat → List String → List (Nat × String)
  | _, [] => []
  | i, l :: rest =>
    if p l then (i, l) :: structuralAux p (i + 1) rest
    else structuralAux p (i + 1) rest

/-- `structural` with enumeration starting at index 0. -/
def structuralOf (p : String → Bool) (lines : List String) : List (Nat × String) :=
  structuralAux p 0 lines

/-- The head-fill loop of `StructureFolder.fold` (folders.py lines
157-162): walk the enumerated lines, break when `remaining` hits 0, skip
indices in `struct_set`, append other lines while decrementing. -/
def sfFillAux (structIdx : List Nat) : Nat → Nat → List String → List String
  | _, _, [] => []
  | _, 0, _ :: _ => []
  | i, n + 1, l :: rest =>
    if i ∈ structIdx then sfFillAux structIdx (i + 1) (n + 1) rest
    else l :: sfFillAux structIdx (i + 1) n rest

/-- The `result_lines` body built by `StructureFolder.fold` (folders.py
lines 149-162), before the notice is appended. -/
def structureBody (p : String → Bool) (lines : List String) (budget : Nat) : List String :=
  let structural := structuralOf p lines
  if budget ≤ structural.length then
    ((structural.take budget).map Prod.snd)
  else
    structural.map Prod.snd ++
      sfFillAux (structural.map Prod.fst) 0 (budget - structural.length) lines

/-- Notice line of `StructureFolder.fold` (folders.py lines 166-169);
`shown` is the value of `len(result_lines) - 2` at the moment the
f-string is evaluated, i.e. after only the blank separator was appended. -/
def foldedNotice (shown : Int) (total : Nat) : String :=
  "[FOLDED: showing " ++ toString shown ++ " structural markers from " ++
    toString total ++ " lines. Query specific symbols to expand.]"

/-- `StructureFolder.fold` (folders.py lines 139-170) at the line level:
body, blank separator, then the notice.  When the notice's f-string runs,
`result_lines` already holds the body plus the blank separator, so
`len(result_lines) - 2` is `body.length + 1 - 2`. -/
def structureFoldLines (p : String → Bool) (lines : List String) (budget : Nat) : List String :=
  let body := structureBody p lines budget
  body ++ ["", foldedNotice ((body.length : Int) + 1 - 2) lines.length]

/-- `StructureFolder.fold` on a raw string. -/
def structureFold (p : String → Bool) (content : String) (budget : Nat) : String :=
  joinNl (structureFoldLines p (pySplitLines content) budget)

/-- A `ContextFolder` instance: its class name plus its `fold` method. -/
structure Folder where
  name : String
  fold : String → Nat → String

/-- The `TruncateFolder()` instance. -/
def TruncateFolder : Folder := ⟨"TruncateFolder", truncateFold⟩

/-- A `HeadTailFolder(head_ratio=r)` instance. -/
def HeadTailFolder (r : ℚ) : Folder := ⟨"HeadTailFolder", headTailFold r⟩

/-- A `StructureFolder()` instance with configured patterns abstracted as `p`. -/
def StructureFolder (p : String → Bool) : Folder := ⟨"StructureFolder", structureFold p⟩

/-- A value stored in a `ConstraintResult.metadata` dict. -/
inductive MVal where
  | int : Int → MVal
  | str : String → MVal
deriving DecidableEq, Repr

/-- `ConstraintResult` (constraints.py lines 31-43); `metadata` keeps the
dict's insertion order as an association list. -/
structure ConstraintResult where
  content : String
  was_truncated : Bool
  metadata : List (String × MVal)
deriving DecidableEq, Repr

/-- `LineLimit.__init__` validation (constraints.py lines 80-82): raises
`ValueError` when `max_lines < 1`, otherwise construction succeeds.  The
constructor receives no content, only the budget. -/
def lineLimitInit (maxLines : Int) : Except String Int :=
  if maxLines < 1 then
    Except.error ("max_lines must be >= 1, got " ++ toString maxLines)
  else Except.ok maxLines

/-- `TokenBudget.__init__` validation (constraints.py lines 132-134). -/
def tokenBudgetInit (maxChars : Int) : Except String Int :=
  if maxChars < 1 then
    Except.error ("max_chars must be >= 1, got " ++ toString maxChars)
  else Except.ok maxChars

/-- `HeadTailFolder.__init__` validation (folders.py lines 82-85):
raises unless `0.0 < head_ratio < 1.0`. -/
def headTailInit (r : ℚ) : Except String ℚ :=
  if 0 < r ∧ r < 1 then Except.ok r
  else Except.error "head_ratio must be in (0, 1)"

/-- `LineLimit.apply` (constraints.py lines 91-115). -/
def lineLimitApply (maxLines : Nat) (folder : Folder) (content : String) : ConstraintResult :=
  let lines := pySplitLines content
  let total := lines.length
  if total ≤ maxLines then
    { content := content
      was_truncated := false
      metadata := [("lines_shown", MVal.int total), ("lines_hidden", MVal.int 0),
                   ("total_lines", MVal.int total)] }
  else
    { content := folder.fold content maxLines
      was_truncated := true
      metadata := [("lines_shown", MVal.int maxLines),
                   ("lines_hidden", MVal.int ((total : Int) - (maxLines : Int))),
                   ("total_lines", MVal.int total),
                   ("folder", MVal.str folder.name)] }

/-- Python `content.count("\n")`: occurrences of the newline character. -/
def nlCount (content : String) : Nat := content.data.count '\n'

/-- `TokenBudget.apply` (constraints.py lines 142-168). -/
def tokenBudgetApply (maxChars : Nat) (folder : Folder) (content : String) : ConstraintResult :=
  let total := content.length
  if total ≤ maxChars then
    { content := content
      was_truncated := false
      metadata := [("chars_shown", MVal.int total), ("chars_hidden", MVal.int 0),
                   ("total_chars", MVal.int total)] }
  else
    let avgLineLen := max 1 (total / max 1 (nlCount content + 1))
    let budgetLines := max 1 (maxChars / avgLineLen)
    let folded := folder.fold content budgetLines
    { content := folded
      was_truncated := true
      metadata := [("chars_shown", MVal.int folded.length),
                   ("chars_hidden", MVal.int ((total : Int) - (maxChars : Int))),
                   ("total_chars", MVal.int total),
                   ("folder", MVal.str folder.name)] }

/-- A rollout `state` restricted to the integer counters the telemetry
rubric reads; `stateGet s k d` is Python's `state.get(k, d)`. -/
def stateGet (s : List (String × Int)) (k : String) (d : Int) : Int :=
  (s.lookup k).getD d

/-- `NavigationMonitorRubric.nav_truncation_rate` (telemetry.py lines
54-59), with float division modelled as rational division. -/
def navTruncationRate (s : List (String × Int)) : ℚ :=
  let total := stateGet s "nav_total_tool_outputs" 0
  if total = 0 then 0
  else (stateGet s "nav_truncations" 0 : ℚ) / (total : ℚ)

/-- Closed form of the `lines_hidden` counter that `LineLimit.apply`
stores in its metadata: 0 on passthrough, `total - max_lines` otherwise. -/
def linesHiddenSpec (maxLines : Nat) (content : String) : Int :=
  if (pySplitLines content).length ≤ maxLines then 0
  else ((pySplitLines content).length : Int) - (maxLines : Int)

/-- A concrete structural-pattern oracle used for witnesses: whether a
line starts with the four characters of a Python `def ` marker (the lines
it is applied to are exactly those matched by the first pattern of
`_STRUCTURE_PATTERNS`). -/
def isDefLine (s : String) : Bool :=
  match s.data with
  | 'd' :: 'e' :: 'f' :: ' ' :: _ => true
  | _ => false

/-! Theorems -/

/-- C1: `LineLimit.apply` returns `was_truncated = false` with content
identical to the input exactly when the input's line count (splitting on
newline) is at most `max_lines`, and `TokenBudget.apply` does the same
exactly when the character count is at most `max_chars`; whenever
`was_truncated` is false the returned content equals the input. -/
theorem passthrough_characterization (maxLines maxChars : Nat) (f g : Folder)
    (content : String) :
    ((lineLimitApply maxLines f content).was_truncated = false ∧
        (lineLimitApply maxLines f content).content = content ↔
      (pySplitLines content).length ≤ maxLines) ∧
    ((tokenBudgetApply maxChars g content).was_truncated = false ∧
        (tokenBudgetApply maxChars g content).content = content ↔
      content.length ≤ maxChars) ∧
    ((lineLimitApply maxLines f content).was_truncated = false →
      (lineLimitApply maxLines f content).content = content) ∧
    ((tokenBudgetApply maxChars g content).was_truncated = false →
      (tokenBudgetApply maxChars g content).content = content) := by
  unfold lineLimitApply tokenBudgetApply
  refine ⟨?_, ?_, ?_, ?_⟩ <;>
    · by_cases h : (pySplitLines content).length ≤ maxLines <;>
        by_cases h2 : content.length ≤ maxChars <;>
        simp [h, h2]

/-- Witness for C1 at a concrete passthrough input. -/
theorem passthrough_characterization_witness :
    (lineLimitApply 1 TruncateFolder "x").was_truncated = false ∧
    (lineLimitApply 1 TruncateFolder "x").content = "x" ∧
    (tokenBudgetApply 1 TruncateFolder "x").was_truncated = false ∧
    (tokenBudgetApply 1 TruncateFolder "x").content = "x" := by
  have h := passthrough_characterization 1 1 TruncateFolder TruncateFolder "x"
  have h1 := h.1.mpr (by decide)
  have h2 := h.2.1.mpr (by decide)
  exact ⟨h1.1, h.2.2.1 h1.1, h2.1, h.2.2.2 h2.1⟩

/-- C2: constructing `LineLimit` with `max_lines < 1`, `TokenBudget` with
`max_chars < 1`, or `HeadTailFolder` with `head_ratio` outside the open
interval (0, 1) fails at construction time (the constructors receive no
content), and construction succeeds exactly on the valid domain. -/
theorem construction_validation (nL nC : Int) (r : ℚ) :
    ((lineLimitInit nL).isOk = true ↔ 1 ≤ nL) ∧
    ((tokenBudgetInit nC).isOk = true ↔ 1 ≤ nC) ∧
    ((headTailInit r).isOk = true ↔ 0 < r ∧ r < 1) := by
  refine ⟨?_, ?_, ?_⟩
  · unfold lineLimitInit
    by_cases h : nL < 1 <;> simp [h, Except.isOk, Except.toBool] <;> omega
  · unfold tokenBudgetInit
    by_cases h : nC < 1 <;> simp [h, Except.isOk, Except.toBool] <;> omega
  · unfold headTailInit
    by_cases h : 0 < r ∧ r < 1 <;> simp [h, Except.isOk, Except.toBool]

/-- C9: the truncation-rate metric returns 0 when the total tool-output
counter is zero, and `truncations / total` otherwise. -/
theorem truncation_rate_guarded (s : List (String × Int)) :
    (stateGet s "nav_total_tool_outputs" 0 = 0 → navTruncationRate s = 0) ∧
    (stateGet s "nav_total_tool_outputs" 0 ≠ 0 →
      navTruncationRate s =
        (stateGet s "nav_truncations" 0 : ℚ) /
          (stateGet s "nav_total_tool_outputs" 0 : ℚ)) := by
  unfold navTruncationRate
  constructor <;> intro h <;> simp [h]

/-- Witness for C9 at an empty state and at a state with 1 truncation out
of 4 outputs. -/
theorem truncation_rate_guarded_witness :
    navTruncationRate [] = 0 ∧
    navTruncationRate [("nav_total_tool_outputs", 4), ("nav_truncations", 1)] =
      (stateGet [("nav_total_tool_outputs", 4), ("nav_truncations", 1)]
          "nav_truncations" 0 : ℚ) /
        (stateGet [("nav_total_tool_outputs", 4), ("nav_truncations", 1)]
          "nav_total_tool_outputs" 0 : ℚ) :=
  ⟨(truncation_rate_guarded []).1 rfl,
    (truncation_rate_guarded
      [("nav_total_tool_outputs", 4), ("nav_truncations", 1)]).2 (by decide)⟩

/-- C8: holding content and folder fixed, a larger `max_lines` never
yields a larger `lines_hidden` value in `LineLimit.apply`'s metadata. -/
theorem lines_hidden_antitone (content : String) (f : Folder) (a b : Nat)
    (h1 : 1 ≤ a) (h2 : a ≤ b) :
    (lineLimitApply a f content).metadata.lookup "lines_hidden" =
      some (MVal.int (linesHiddenSpec a content)) ∧
    (lineLimitApply b f content).metadata.lookup "lines_hidden" =
      some (MVal.int (linesHiddenSpec b content)) ∧
    linesHiddenSpec b content ≤ linesHiddenSpec a content := by
  refine ⟨?_, ?_, ?_⟩
  · unfold lineLimitApply linesHiddenSpec
    by_cases h : (pySplitLines content).length ≤ a <;> simp [h, List.lookup]
  · unfold lineLimitApply linesHiddenSpec
    by_cases h : (pySplitLines content).length ≤ b <;> simp [h, List.lookup]
  · unfold linesHiddenSpec
    split <;> split <;> omega

/-- Witness for C8 with limits 1 ≤ 2 on three-line content. -/
theorem lines_hidden_antitone_witness :
    (lineLimitApply 1 TruncateFolder "x\ny\nz").metadata.lookup "lines_hidden" =
      some (MVal.int (linesHiddenSpec 1 "x\ny\nz")) ∧
    linesHiddenSpec 2 "x\ny\nz" ≤ linesHiddenSpec 1 "x\ny\nz" :=
  ⟨(lines_hidden_antitone "x\ny\nz" TruncateFolder 1 2 (by decide) (by decide)).1,
    (lines_hidden_antitone "x\ny\nz" TruncateFolder 1 2 (by decide) (by decide)).2.2⟩

/-- C10: `TokenBudget(4)` with the default `TruncateFolder` applied to
the 7-character input of four 1-character lines reports truncation yet
returns a strictly longer content string, with `chars_shown` exceeding
`total_chars`; the derived line budget covers every input line. -/
theorem tokenBudget_output_can_grow :
    (tokenBudgetApply 4 TruncateFolder "a\na\na\na").was_truncated = true ∧
    ("a\na\na\na" : String).length = 7 ∧
    4 < ("a\na\na\na" : String).length ∧
    ("a\na\na\na" : String).length <
      (tokenBudgetApply 4 TruncateFolder "a\na\na\na").content.length ∧
    (tokenBudgetApply 4 TruncateFolder "a\na\na\na").metadata.lookup "chars_shown" =
      some (MVal.int
        ((tokenBudgetApply 4 TruncateFolder "a\na\na\na").content.length : Int)) ∧
    (tokenBudgetApply 4 TruncateFolder "a\na\na\na").metadata.lookup "total_chars" =
      some (MVal.int 7) ∧
    (pySplitLines "a\na\na\na").length ≤
      max 1 (4 / max 1 (("a\na\na\na" : String).length /
        max 1 (nlCount "a\na\na\na" + 1))) := by
  decide

/-- C6: for content with more than `N` lines (`N ≥ 1`),
`TruncateFolder.fold` keeps exactly the first `N` lines verbatim — the
body holds line `N-1` at its last position and has length `N`, so line
`N` of the content lies beyond it — and appends exactly a blank separator
line followed by the literal marker reporting `total - N` of `total`
lines hidden. -/
theorem truncate_keeps_first (lines : List String) (budget : Nat)
    (h0 : 0 < budget) (h : budget < lines.length) :
    truncateFoldLines lines budget =
      lines.take budget ++
        ["", truncNotice ((lines.length : Int) - (budget : Int)) lines.length] ∧
    (lines.take budget).get? (budget - 1) = lines.get? (budget - 1) ∧
    lines.get? (budget - 1) ≠ none ∧
    (lines.take budget).length = budget := by
  refine ⟨rfl, ?_, ?_, ?_⟩
  · exact List.get?_take (by omega)
  · intro hc
    rw [List.get?_eq_none] at hc
    omega
  · simp [List.length_take]
    omega

/-- Witness for C6 on three lines with budget 2. -/
theorem truncate_keeps_first_witness :
    0 < 2 ∧ 2 < (["a", "b", "c"] : List String).length ∧
    ((["a", "b", "c"] : List String).take 2).length = 2 :=
  ⟨by decide, by decide,
    (truncate_keeps_first ["a", "b", "c"] 2 (by decide) (by decide)).2.2.2⟩

/-- C7: when the character count exceeds `max_chars`, `TokenBudget.apply`
returns the folder's output at the derived line budget
`max(1, max_chars / avg)` with `avg = max(1, total / (newlines + 1))`,
marks the result truncated, and stores `chars_shown` (length of the
folded output), `chars_hidden = total - max_chars`, `total_chars`, and
the folder's name in the metadata. -/
theorem tokenBudget_over_budget (maxChars : Nat) (f : Folder) (content : String)
    (h : maxChars < content.length) :
    tokenBudgetApply maxChars f content =
      { content := f.fold content
          (max 1 (maxChars / max 1 (content.length / (nlCount content + 1))))
        was_truncated := true
        metadata := [("chars_shown", MVal.int
            ((f.fold content
              (max 1 (maxChars / max 1 (content.length / (nlCount content + 1))))).length
                : Int)),
          ("chars_hidden", MVal.int ((content.length : Int) - (maxChars : Int))),
          ("total_chars", MVal.int (content.length : Int)),
          ("folder", MVal.str f.name)] } := by
  unfold tokenBudgetApply
  rw [if_neg (by omega)]
  have hmax : max 1 (nlCount content + 1) = nlCount content + 1 :=
    Nat.max_eq_right (Nat.succ_le_succ (Nat.zero_le _))
  rw [hmax]

/-- Witness for C7: `TokenBudget(1)` on the 5-character two-line input. -/
theorem tokenBudget_over_budget_witness :
    1 < ("ab\ncd" : String).length ∧
    (tokenBudgetApply 1 TruncateFolder "ab\ncd").content =
      TruncateFolder.fold "ab\ncd"
        (max 1 (1 / max 1 (("ab\ncd" : String).length / (nlCount "ab\ncd" + 1)))) := by
  refine ⟨by decide, ?_⟩
  rw [tokenBudget_over_budget 1 TruncateFolder "ab\ncd" (by decide)]

/-- Head budget of `HeadTailFolder(0.5)` at `budget_lines = 4`. -/
theorem htHeadCount_half_four : htHeadCount (1/2) 4 = 2 := by
  unfold htHeadCount
  norm_num
  decide

/-- Tail budget of `HeadTailFolder(0.5)` at `budget_lines = 4`. -/
theorem htTailCount_half_four : htTailCount (1/2) 4 = 2 := by
  unfold htTailCount
  rw [htHeadCount_half_four]
  decide

/-- C5 counterexample: with `head_ratio = 0.5`, `budget_lines = 4` and a
two-line content, `head_n = tail_n = 2`, and line position 0 is rendered
by both the head segment and the tail segment; the fold output repeats
both input lines. -/
theorem headTail_overlap_counterexample :
    renderedInHead (1/2) 4 ["a", "b"] 0 ∧ renderedInTail (1/2) 4 ["a", "b"] 0 ∧
    headTailFoldLines (1/2) ["a", "b"] 4 =
      ["a", "b", "", elideNotice (-2), "", "a", "b"] := by
  unfold renderedInHead renderedInTail headTailFoldLines
  rw [htHeadCount_half_four, htTailCount_half_four]
  refine ⟨by decide, by decide, ?_⟩
  rfl

/-- C5 amended: when the content has at least `head_n + tail_n` lines
(with `head_n = max(1, floor(budget * ratio))` and
`tail_n = max(1, budget - head_n)`), no line position is rendered by both
the head and the tail segment of `HeadTailFolder.fold`; and when the
content has strictly more lines than `head_n + tail_n`, both the first
and the last line of the content appear in the folded output. -/
theorem headTail_no_overlap (r : ℚ) (lines : List String) (budget : Nat)
    (h : htHeadCount r budget + htTailCount r budget ≤ lines.length) :
    (∀ i, ¬(renderedInHead r budget lines i ∧ renderedInTail r budget lines i)) ∧
    (htHeadCount r budget + htTailCount r budget < lines.length →
      (∀ a, lines.head? = some a → a ∈ headTailFoldLines r lines budget) ∧
      (∀ a, lines.getLast? = some a → a ∈ headTailFoldLines r lines budget)) := by
  constructor
  · rintro i ⟨h1, h2⟩
    unfold renderedInHead at h1
    unfold renderedInTail at h2
    have h1a : i < htHeadCount r budget := lt_of_lt_of_le h1 (min_le_left _ _)
    omega
  · intro _
    have hhead1 : 1 ≤ htHeadCount r budget := le_max_left 1 _
    have htail1 : 1 ≤ htTailCount r budget := le_max_left 1 _
    have hlen : 0 < lines.length := by omega
    constructor
    · intro a ha
      cases lines with
      | nil => simp at ha
      | cons x t =>
        have hax : x = a := by simpa using ha
        subst hax
        simp only [headTailFoldLines]
        apply List.mem_append_left
        have h0 : htHeadCount r budget = (htHeadCount r budget - 1) + 1 := by omega
        rw [h0, List.take_succ_cons]
        exact List.mem_cons_self _ _
    · intro a ha
      rw [List.getLast?_eq_get?] at ha
      have key : (lines.drop (lines.length - htTailCount r budget)).get?
          ((lines.length - 1) - (lines.length - htTailCount r budget)) = some a := by
        rw [List.get?_drop]
        rw [show (lines.length - htTailCount r budget) +
            ((lines.length - 1) - (lines.length - htTailCount r budget)) =
            lines.length - 1 from by omega]
        exact ha
      have hmem : a ∈ lines.drop (lines.length - htTailCount r budget) :=
        List.get?_mem key
      simp only [headTailFoldLines, List.mem_append, List.mem_cons]
      tauto

/-- Witness for C5 amended with ratio 0.5, budget 4 and five lines. -/
theorem headTail_no_overlap_witness :
    ¬(renderedInHead (1/2) 4 ["a", "b", "c", "d", "e"] 0 ∧
        renderedInTail (1/2) 4 ["a", "b", "c", "d", "e"] 0) ∧
    "a" ∈ headTailFoldLines (1/2) ["a", "b", "c", "d", "e"] 4 ∧
    "e" ∈ headTailFoldLines (1/2) ["a", "b", "c", "d", "e"] 4 := by
  have hle : htHeadCount (1/2) 4 + htTailCount (1/2) 4 ≤
      (["a", "b", "c", "d", "e"] : List String).length := by
    rw [htHeadCount_half_four, htTailCount_half_four]
    decide
  have hlt : htHeadCount (1/2) 4 + htTailCount (1/2) 4 <
      (["a", "b", "c", "d", "e"] : List String).length := by
    rw [htHeadCount_half_four, htTailCount_half_four]
    decide
  have h := headTail_no_overlap (1/2) ["a", "b", "c", "d", "e"] 4 hle
  exact ⟨h.1 0, (h.2 hlt).1 "a" rfl, (h.2 hlt).2 "e" rfl⟩

/-- The second components of the `structural` pairs are exactly the lines
matching the pattern test, in document order. -/
theorem structuralAux_map_snd (p : String → Bool) (lines : List String) :
    ∀ k : Nat, (structuralAux p k lines).map Prod.snd = lines.filter p := by
  induction lines with
  | nil => intro k; rfl
  | cons l rest ih =>
    intro k
    cases hp : p l <;> simp [structuralAux, hp, List.filter_cons, ih]

/-- Every index recorded by the enumeration starting at `k` is at least `k`. -/
theorem structuralAux_fst_lb (p : String → Bool) (lines : List String) :
    ∀ k j : Nat, ∀ x : String, (j, x) ∈ structuralAux p k lines → k ≤ j := by
  induction lines with
  | nil => intro k j x hj; simp [structuralAux] at hj
  | cons l rest ih =>
    intro k j x hj
    cases hp : p l <;> simp only [structuralAux, hp, if_pos, if_neg,
      Bool.false_eq_true, if_false, if_true, List.mem_cons] at hj
    · have := ih (k + 1) j x hj
      omega
    · rcases hj with hj | hj
      · have : j = k := congrArg Prod.fst hj
        omega
      · have := ih (k + 1) j x hj
        omega

/-- Membership in the projection to first components, unpacked. -/
theorem mem_map_fst (L : List (Nat × String)) (j : Nat) :
    j ∈ L.map Prod.fst ↔ ∃ x, (j, x) ∈ L := by
  rw [List.mem_map]
  constructor
  · rintro ⟨⟨j', x⟩, hm, he⟩
    exact ⟨x, by simpa [he.symm] using hm⟩
  · rintro ⟨x, hm⟩
    exact ⟨(j, x), hm, rfl⟩

/-- Index `k + m` occurs among the recorded `structural` indices exactly
when the `m`-th line matches the pattern test. -/
theorem structuralAux_pair_iff (p : String → Bool) (lines : List String) :
    ∀ (k m : Nat) (h : m < lines.length),
      (∃ x, (k + m, x) ∈ structuralAux p k lines) ↔ p (lines.get ⟨m, h⟩) = true := by
  induction lines with
  | nil => intro k m h; simp at h
  | cons l rest ih =>
    intro k m h
    cases m with
    | zero =>
      cases hp : p l
      · simp only [structuralAux, hp, Bool.false_eq_true, if_false, Nat.add_zero]
        constructor
        · rintro ⟨x, hx⟩
          have := structuralAux_fst_lb p rest (k + 1) k x hx
          omega
        · intro hc
          simp only [List.get] at hc
          rw [hc] at hp
          simp at hp
      · simp only [structuralAux, hp, if_true, Nat.add_zero, List.get]
        exact ⟨fun _ => by trivial, fun _ => ⟨l, List.mem_cons_self _ _⟩⟩
    | succ m' =>
      have h' : m' < rest.length := by
        simpa using Nat.lt_of_succ_lt_succ h
      have harith : k + (m' + 1) = (k + 1) + m' := by omega
      cases hp : p l
      · simp only [structuralAux, hp, Bool.false_eq_true, if_false]
        rw [harith]
        exact (ih (k + 1) m' h').trans (by simp [List.get])
      · simp only [structuralAux, hp, if_true, List.mem_cons]
        rw [harith]
        have step : (∃ x, ((k + 1) + m', x) = (k, l) ∨ ((k + 1) + m', x) ∈
            structuralAux p (k + 1) rest) ↔
            (∃ x, ((k + 1) + m', x) ∈ structuralAux p (k + 1) rest) := by
          constructor
          · rintro ⟨x, hx | hx⟩
            · have : (k + 1) + m' = k := congrArg Prod.fst hx
              omega
            · exact ⟨x, hx⟩
          · rintro ⟨x, hx⟩
            exact ⟨x, Or.inr hx⟩
        rw [step]
        exact (ih (k + 1) m' h').trans (by simp [List.get])

/-- The head-fill loop collects, in document order, the first `n`
non-structural lines, whenever the index set agrees with the pattern
test on every line position. -/
theorem sfFillAux_eq (p : String → Bool) (S : List Nat) (lines : List String) :
    ∀ (k n : Nat),
      (∀ (m : Nat) (h : m < lines.length),
        ((k + m) ∈ S ↔ p (lines.get ⟨m, h⟩) = true)) →
      sfFillAux S k n lines = (lines.filter (fun l => !(p l))).take n := by
  induction lines with
  | nil => intro k n _; simp [sfFillAux]
  | cons l rest ih =>
    intro k n H
    have h0 : (k ∈ S) ↔ p l = true := by
      simpa using H 0 (by simp)
    have Hrest : ∀ (m : Nat) (h : m < rest.length),
        (((k + 1) + m) ∈ S ↔ p (rest.get ⟨m, h⟩) = true) := by
      intro m hm
      have := H (m + 1) (by simp; omega)
      rw [show k + (m + 1) = (k + 1) + m from by omega] at this
      simpa [List.get] using this
    cases n with
    | zero => simp [sfFillAux]
    | succ n' =>
      cases hp : p l
      · have hk : k ∉ S := fun hk => by
          rw [h0.mp hk] at hp
          exact absurd hp (by simp)
        rw [show sfFillAux S k (n' + 1) (l :: rest) =
            l :: sfFillAux S (k + 1) n' rest from by
          simp [sfFillAux, hk]]
        rw [ih (k + 1) n' Hrest]
        simp [List.filter_cons, hp]
      · have hk : k ∈ S := h0.mpr hp
        rw [show sfFillAux S k (n' + 1) (l :: rest) =
            sfFillAux S (k + 1) (n' + 1) rest from by
          simp [sfFillAux, hk]]
        rw [ih (k + 1) (n' + 1) Hrest]
        simp [List.filter_cons, hp]

/-- C3: when the structural-line count is at least `budget_lines`, the
body of `StructureFolder.fold` is exactly the first `budget_lines`
structural lines in document order; otherwise it is every structural
line in document order followed by the non-structural lines taken from
the beginning of the document until the budget is filled, so every line
matching a configured pattern appears in the output in that case. -/
theorem structureFolder_selection (p : String → Bool) (lines : List String) (budget : Nat) :
    (budget ≤ (lines.filter p).length →
      structureBody p lines budget = (lines.filter p).take budget) ∧
    ((lines.filter p).length < budget →
      structureBody p lines budget =
        lines.filter p ++
          (lines.filter (fun l => !(p l))).take (budget - (lines.filter p).length)) ∧
    ((lines.filter p).length < budget →
      ∀ l ∈ lines, p l = true → l ∈ structureFoldLines p lines budget) := by
  have hsnd : (structuralOf p lines).map Prod.snd = lines.filter p :=
    structuralAux_map_snd p lines 0
  have hlen : (structuralOf p lines).length = (lines.filter p).length := by
    rw [← hsnd, List.length_map]
  have hfillH : ∀ (m : Nat) (h : m < lines.length),
      ((0 + m) ∈ (structuralOf p lines).map Prod.fst ↔ p (lines.get ⟨m, h⟩) = true) := by
    intro m h
    rw [mem_map_fst]
    exact structuralAux_pair_iff p lines 0 m h
  have hover : budget ≤ (lines.filter p).length →
      structureBody p lines budget = (lines.filter p).take budget := by
    intro hb
    simp only [structureBody]
    rw [if_pos (by omega)]
    rw [← hsnd, List.map_take]
  have hunder : (lines.filter p).length < budget →
      structureBody p lines budget =
        lines.filter p ++
          (lines.filter (fun l => !(p l))).take (budget - (lines.filter p).length) := by
    intro hb
    simp only [structureBody]
    rw [if_neg (by omega)]
    rw [hsnd, hlen]
    congr 1
    exact sfFillAux_eq p ((structuralOf p lines).map Prod.fst) lines 0
      (budget - (lines.filter p).length) hfillH
  refine ⟨hover, hunder, ?_⟩
  intro hb l hl hp
  have hmem : l ∈ lines.filter p := List.mem_filter.mpr ⟨hl, hp⟩
  have hbody : l ∈ structureBody p lines budget := by
    rw [hunder hb]
    exact List.mem_append_left _ hmem
  simp only [structureFoldLines]
  exact List.mem_append_left _ hbody

/-- Witness for C3: the oracle for the `def ` pattern on a three-line
content, at a saturating budget of 1 and a loose budget of 4. -/
theorem structureFolder_selection_witness :
    structureBody isDefLine ["def a():", "x", "def b():"] 1 =
      ((["def a():", "x", "def b():"] : List String).filter isDefLine).take 1 ∧
    structureBody isDefLine ["def a():", "x", "def b():"] 4 =
      (["def a():", "x", "def b():"] : List String).filter isDefLine ++
        ((["def a():", "x", "def b():"] : List String).filter
          (fun l => !(isDefLine l))).take
            (4 - ((["def a():", "x", "def b():"] : List String).filter isDefLine).length) ∧
    "def a():" ∈ structureFoldLines isDefLine ["def a():", "x", "def b():"] 4 :=
  ⟨(structureFolder_selection isDefLine ["def a():", "x", "def b():"] 1).1 (by decide),
    (structureFolder_selection isDefLine ["def a():", "x", "def b():"] 4).2.1 (by decide),
    (structureFolder_selection isDefLine ["def a():", "x", "def b():"] 4).2.2 (by decide)
      "def a():" (by decide) (by decide)⟩

/-- C4: at the two-line input whose lines both match the `def ` pattern
and budget 2, `StructureFolder.fold` shows 2 structural markers in its
body but the appended notice reports `showing 1 structural markers from
2 lines` — the `len(result_lines) - 2` expression is evaluated after
only the blank separator has been appended, so the first reported number
is the body length minus one, not the number of markers shown. -/
theorem structureFold_notice_undercounts :
    structureFoldLines isDefLine ["def a():", "def b():"] 2 =
      ["def a():", "def b():", "",
        "[FOLDED: showing 1 structural markers from 2 lines. Query specific symbols to expand.]"] ∧
    ((["def a():", "def b():"] : List String).filter isDefLine).length = 2 ∧
    pySplitLines "def a():\ndef b():" = ["def a():", "def b():"] := by
  refine ⟨?_, by decide, by decide⟩
  decide
